import Mathlib

/-!
Verification of the caching layer of the FMP MCP server
(src/fmp_mcp_server.py) against its specification.

The Python functions are shallowly embedded: JSON values are an inductive
type, the outcome of every `requests.get` is an explicit oracle in an
environment record, the cache directory is a map from file name to file
content, and each embedded function returns its value together with the
updated state and a count of the upstream fetches it performed.
-/

/-- JSON value as produced by Python's json module. Numbers are collapsed
to `Int` tokens: no claim depends on numeric arithmetic, only on presence,
nullness and equality of values. -/
inductive Json where
  | null
  | bool (b : Bool)
  | num (n : Int)
  | str (s : String)
  | arr (elems : List Json)
  | obj (entries : List (String × Json))

/-- Python dict key lookup on a JSON object (objects produced by the json
module have unique keys, so first binding wins); `none` on non-objects and
absent keys. -/
def jsonLookup (j : Json) (k : String) : Option Json :=
  match j with
  | Json.obj entries => entries.lookup k
  | _ => none

/-- Python `str.upper()` on the ASCII letters (every ticker and period
string handled by the server is ASCII, where CPython and `Char.toUpper`
agree). -/
def pyUpper (s : String) : String :=
  String.mk (s.data.map Char.toUpper)

/-- Python `str.lower()` on the ASCII letters. -/
def pyLower (s : String) : String :=
  String.mk (s.data.map Char.toLower)

/-- Body of an HTTP response as observed by `get_jsonparsed_data`: empty
text, text that fails to parse as JSON, or text parsing to a JSON value. -/
inductive Body where
  | empty
  | malformed
  | wellFormed (j : Json)

/-- Outcome of one `requests.get`: the call raises (network, timeout or
connection error) or delivers a response with an HTTP status code and a
body. -/
inductive HttpResponse where
  | failure
  | response (status : Nat) (body : Body)

/-- Embedding of `get_jsonparsed_data` (src/fmp_mcp_server.py lines 80-99).
`response.raise_for_status()` raises `HTTPError` exactly for status codes
400..599; then the empty-body check and JSON decoding run, and every
raised exception is caught and mapped to `None`. A body that is the JSON
text null parses to Python `None` (line 89 returns `response.json()`), so
the caller receives the same `None` as on every failure: the model
collapses a top-level parsed null to `none`. -/
def get_jsonparsed_data : HttpResponse → Option Json
  | HttpResponse.failure => none
  | HttpResponse.response status body =>
    if 400 ≤ status ∧ status < 600 then none
    else
      match body with
      | Body.empty => none
      | Body.malformed => none
      | Body.wellFormed j =>
        match j with
        | Json.null => none
        | _ => some j

/-- Content of one on-disk cache file: text that parses as JSON, or a file
whose read or JSON parse raises (corrupt). -/
inductive CacheFile where
  | valid (j : Json)
  | corrupt

/-- The cache directory: a map from file name to file content. -/
abbrev CacheFS := String → Option CacheFile

/-- One row of the bulk profile CSV as produced by `csv.DictReader`:
column name to cell text. -/
abbrev Row := List (String × String)

/-- Content of the bulk profile CSV file on disk: text that parses to rows,
or a file whose read raises. -/
inductive CsvFile where
  | rows (rs : List Row)
  | corrupt

/-- The fixed parts of the process environment: whether the cache directory
exists (`CACHE_DIR` is not `None`), whether best-effort cache writes
succeed, the outcome of `requests.get` per URL, the outcome of the bulk
CSV download per URL, and the configured API key. -/
structure Env where
  cacheConfigured : Bool
  writeOk : Bool
  http : String → HttpResponse
  csvDownload : String → Option CsvFile
  apiKey : String

/-- The value `get_jsonparsed_data` returns for a URL in environment `env`. -/
def fetchJson (env : Env) (url : String) : Option Json :=
  get_jsonparsed_data (env.http url)

/-- Wall-clock time as read from `datetime.datetime.now()`; `month` is
1..12 for every value the library produces. -/
structure DateTime where
  year : Nat
  month : Nat
  day : Nat

/-- Quarter/year suffix computed by `get_cached_fetch` (lines 106-110):
quarter is `(now.month - 1) // 3 + 1`. -/
def timestampSuffix (now : DateTime) : String :=
  toString now.year ++ "_Q" ++ toString ((now.month - 1) / 3 + 1)

/-- Cache file identifier derived by `get_cached_fetch` for a filename
prefix at time `now` (line 111; the constant `CACHE_DIR` path component is
omitted, it is shared by every file name). -/
def cacheFilename (fnamePfx : String) (now : DateTime) : String :=
  fnamePfx ++ "_" ++ timestampSuffix now ++ ".json"

/-- Overwrite one cache file with a JSON payload (`json.dump`). -/
def writeCache (fs : CacheFS) (name : String) (j : Json) : CacheFS :=
  fun f => if f = name then some (CacheFile.valid j) else fs f

/-- Embedding of `get_cached_fetch` (lines 101-137): the returned value,
the cache directory afterwards, and how many upstream fetches were
performed (0 or 1). A valid file for the derived identifier is returned
without fetching; a missing or corrupt file falls through to a live fetch;
a successful fetch is persisted (best effort), a `None` fetch is not. -/
def get_cached_fetch (env : Env) (now : DateTime) (fs : CacheFS)
    (url : String) (fnamePfx : String) : Option Json × CacheFS × Nat :=
  if env.cacheConfigured = false then
    (fetchJson env url, fs, 1)
  else
    match fs (cacheFilename fnamePfx now) with
    | some (CacheFile.valid j) => (some j, fs, 0)
    | _ =>
      match fetchJson env url with
      | none => (none, fs, 1)
      | some j =>
        (some j,
         if env.writeOk then writeCache fs (cacheFilename fnamePfx now) j else fs,
         1)

/-- Whether a cache-directory entry is a readable JSON file (a cache hit). -/
def hasValidEntry : Option CacheFile → Bool
  | some (CacheFile.valid _) => true
  | _ => false

/-- Two wall-clock times fall in the same quarterly time bucket. -/
def sameBucket (a b : DateTime) : Prop :=
  a.year = b.year ∧ (a.month - 1) / 3 + 1 = (b.month - 1) / 3 + 1

theorem cacheFilename_congr (fnamePfx : String) (a b : DateTime)
    (h : sameBucket a b) : cacheFilename fnamePfx a = cacheFilename fnamePfx b := by
  unfold cacheFilename timestampSuffix
  rw [h.1, h.2]

theorem get_cached_fetch_miss_success (env : Env) (now : DateTime)
    (fs : CacheFS) (url fnamePfx : String) (v : Json)
    (hconf : env.cacheConfigured = true) (hwrite : env.writeOk = true)
    (hmiss : hasValidEntry (fs (cacheFilename fnamePfx now)) = false)
    (hfetch : fetchJson env url = some v) :
    get_cached_fetch env now fs url fnamePfx =
      (some v, writeCache fs (cacheFilename fnamePfx now) v, 1) := by
  unfold get_cached_fetch
  rw [hconf]
  simp only [Bool.true_eq_false, if_false]
  cases h2 : fs (cacheFilename fnamePfx now) with
  | none => simp [h2, hfetch, hwrite]
  | some cf =>
    cases cf with
    | valid j => rw [h2] at hmiss; simp [hasValidEntry] at hmiss
    | corrupt => simp [h2, hfetch, hwrite]

theorem get_cached_fetch_hit (env : Env) (now : DateTime) (fs : CacheFS)
    (url fnamePfx : String) (v : Json)
    (hconf : env.cacheConfigured = true)
    (hhit : fs (cacheFilename fnamePfx now) = some (CacheFile.valid v)) :
    get_cached_fetch env now fs url fnamePfx = (some v, fs, 0) := by
  unfold get_cached_fetch
  rw [hconf]
  simp [hhit]

/-- C1: two `get_cached_fetch` calls with the same filename prefix whose
wall-clock times fall in the same quarterly bucket derive the same cache
file identifier; when the first call misses, fetches successfully and
persists its payload, a second call in the same bucket with that prefix
returns the cached payload (whatever its URL) and performs zero upstream
fetches. -/
theorem c1_second_call_hits_cache
    (env : Env) (now1 now2 : DateTime) (fs : CacheFS)
    (url fnamePfx : String) (v : Json)
    (hconf : env.cacheConfigured = true)
    (hwrite : env.writeOk = true)
    (hbucket : sameBucket now1 now2)
    (hmiss : hasValidEntry (fs (cacheFilename fnamePfx now1)) = false)
    (hfetch : fetchJson env url = some v) :
    cacheFilename fnamePfx now1 = cacheFilename fnamePfx now2 ∧
    get_cached_fetch env now1 fs url fnamePfx =
      (some v, writeCache fs (cacheFilename fnamePfx now1) v, 1) ∧
    ∀ url2 : String,
      get_cached_fetch env now2 (writeCache fs (cacheFilename fnamePfx now1) v)
          url2 fnamePfx =
        (some v, writeCache fs (cacheFilename fnamePfx now1) v, 0) := by
  have hfn := cacheFilename_congr fnamePfx now1 now2 hbucket
  refine ⟨hfn, get_cached_fetch_miss_success env now1 fs url fnamePfx v
    hconf hwrite hmiss hfetch, ?_⟩
  intro url2
  apply get_cached_fetch_hit env now2 _ url2 fnamePfx v hconf
  rw [← hfn]
  simp [writeCache]

/-- C1 witness: a concrete environment and two dates in 2024 Q1 where the
first call misses, fetches successfully and persists, and the second call
returns the cached payload with zero upstream fetches. -/
theorem c1_second_call_hits_cache_witness :
    (let env : Env :=
      { cacheConfigured := true, writeOk := true,
        http := fun _ => HttpResponse.response 200 (Body.wellFormed (Json.arr [])),
        csvDownload := fun _ => none, apiKey := "k" }
     let fs : CacheFS := fun _ => none
     env.cacheConfigured = true ∧ env.writeOk = true ∧
     sameBucket ⟨2024, 2, 15⟩ ⟨2024, 3, 20⟩ ∧
     hasValidEntry (fs (cacheFilename "NASDAQ_quotes" ⟨2024, 2, 15⟩)) = false ∧
     fetchJson env "u" = some (Json.arr []) ∧
     (cacheFilename "NASDAQ_quotes" ⟨2024, 2, 15⟩ =
        cacheFilename "NASDAQ_quotes" ⟨2024, 3, 20⟩ ∧
      get_cached_fetch env ⟨2024, 2, 15⟩ fs "u" "NASDAQ_quotes" =
        (some (Json.arr []),
         writeCache fs (cacheFilename "NASDAQ_quotes" ⟨2024, 2, 15⟩) (Json.arr []), 1) ∧
      ∀ url2 : String,
        get_cached_fetch env ⟨2024, 3, 20⟩
            (writeCache fs (cacheFilename "NASDAQ_quotes" ⟨2024, 2, 15⟩) (Json.arr []))
            url2 "NASDAQ_quotes" =
          (some (Json.arr []),
           writeCache fs (cacheFilename "NASDAQ_quotes" ⟨2024, 2, 15⟩) (Json.arr []), 0))) :=
  ⟨rfl, rfl, ⟨rfl, rfl⟩, rfl, rfl,
   c1_second_call_hits_cache _ ⟨2024, 2, 15⟩ ⟨2024, 3, 20⟩ _ "u" "NASDAQ_quotes"
     (Json.arr []) rfl rfl ⟨rfl, rfl⟩ rfl rfl⟩

/-- C2: the quarterly bucket suffix is year, an underscore, Q and the
quarter `(month - 1) // 3 + 1`; on 2024-02-15 and 2024-03-20 the derived
identifier carries suffix `2024_Q1` (so the two identifiers coincide for
every prefix) and on 2024-04-01 it carries suffix `2024_Q2`. -/
theorem c2_quarterly_suffix :
    (∀ now : DateTime,
      timestampSuffix now =
        toString now.year ++ "_Q" ++ toString ((now.month - 1) / 3 + 1)) ∧
    timestampSuffix ⟨2024, 2, 15⟩ = "2024_Q1" ∧
    timestampSuffix ⟨2024, 3, 20⟩ = "2024_Q1" ∧
    timestampSuffix ⟨2024, 4, 1⟩ = "2024_Q2" ∧
    (∀ fnamePfx : String,
      cacheFilename fnamePfx ⟨2024, 2, 15⟩ = cacheFilename fnamePfx ⟨2024, 3, 20⟩) ∧
    timestampSuffix ⟨2024, 4, 1⟩ ≠ timestampSuffix ⟨2024, 2, 15⟩ := by
  refine ⟨fun _ => rfl, by decide, by decide, by decide, fun fnamePfx => ?_, by decide⟩
  exact cacheFilename_congr fnamePfx ⟨2024, 2, 15⟩ ⟨2024, 3, 20⟩ ⟨rfl, rfl⟩

/-- C3: when the cache holds no valid entry for the derived identifier and
the raw fetch returns null, `get_cached_fetch` returns null, performs one
upstream fetch and writes nothing (the cache state is unchanged), so any
later call in the same bucket fetches upstream again instead of returning
a cached null. -/
theorem c3_null_fetch_not_cached
    (env : Env) (now : DateTime) (fs : CacheFS) (url fnamePfx : String)
    (hmiss : hasValidEntry (fs (cacheFilename fnamePfx now)) = false)
    (hfetch : fetchJson env url = none) :
    get_cached_fetch env now fs url fnamePfx = (none, fs, 1) ∧
    ∀ now2 : DateTime, sameBucket now now2 →
      get_cached_fetch env now2 fs url fnamePfx = (none, fs, 1) := by
  have main : ∀ t : DateTime,
      hasValidEntry (fs (cacheFilename fnamePfx t)) = false →
      get_cached_fetch env t fs url fnamePfx = (none, fs, 1) := by
    intro t hm
    unfold get_cached_fetch
    cases hc : env.cacheConfigured with
    | false => simp [hfetch]
    | true =>
      simp only [Bool.true_eq_false, if_false]
      cases h2 : fs (cacheFilename fnamePfx t) with
      | none => simp [h2, hfetch]
      | some cf =>
        cases cf with
        | valid j => rw [h2] at hm; simp [hasValidEntry] at hm
        | corrupt => simp [h2, hfetch]
  refine ⟨main now hmiss, fun now2 hb => main now2 ?_⟩
  rw [← cacheFilename_congr fnamePfx now now2 hb]
  exact hmiss

/-- C3 witness: a concrete failing environment where the fetch is null, the
call returns null without writing, and a call in the same bucket fetches
again. -/
theorem c3_null_fetch_not_cached_witness :
    (let env : Env :=
      { cacheConfigured := true, writeOk := true,
        http := fun _ => HttpResponse.failure,
        csvDownload := fun _ => none, apiKey := "k" }
     let fs : CacheFS := fun _ => none
     hasValidEntry (fs (cacheFilename "p" ⟨2024, 5, 1⟩)) = false ∧
     fetchJson env "u" = none ∧
     (get_cached_fetch env ⟨2024, 5, 1⟩ fs "u" "p" = (none, fs, 1) ∧
      ∀ now2 : DateTime, sameBucket ⟨2024, 5, 1⟩ now2 →
        get_cached_fetch env now2 fs "u" "p" = (none, fs, 1))) :=
  ⟨rfl, rfl, c3_null_fetch_not_cached _ ⟨2024, 5, 1⟩ _ "u" "p" rfl rfl⟩

/-- C4: a corrupt cache file for the derived identifier is treated exactly
as a miss: `get_cached_fetch` performs one live upstream fetch, returns
its value (so it succeeds whenever upstream succeeds), does not delete the
corrupt file when the fetch fails, and the file exists afterwards in every
case. -/
theorem c4_corrupt_file_is_miss
    (env : Env) (now : DateTime) (fs : CacheFS) (url fnamePfx : String)
    (hconf : env.cacheConfigured = true)
    (hcorrupt : fs (cacheFilename fnamePfx now) = some CacheFile.corrupt) :
    (get_cached_fetch env now fs url fnamePfx).1 = fetchJson env url ∧
    (get_cached_fetch env now fs url fnamePfx).2.2 = 1 ∧
    (fetchJson env url = none → (get_cached_fetch env now fs url fnamePfx).2.1 = fs) ∧
    (get_cached_fetch env now fs url fnamePfx).2.1 (cacheFilename fnamePfx now) ≠ none := by
  unfold get_cached_fetch
  rw [hconf]
  simp only [Bool.true_eq_false, if_false, hcorrupt]
  cases hf : fetchJson env url with
  | none => simp [hcorrupt]
  | some v =>
    cases hw : env.writeOk with
    | false => simp [hcorrupt, hf]
    | true => simp [writeCache, hf]

/-- C4 witness: a concrete corrupt cache file, one live fetch that
succeeds and is returned, and the file still present. -/
theorem c4_corrupt_file_is_miss_witness :
    (let env : Env :=
      { cacheConfigured := true, writeOk := true,
        http := fun _ => HttpResponse.response 200 (Body.wellFormed (Json.arr [])),
        csvDownload := fun _ => none, apiKey := "k" }
     let fs : CacheFS :=
       fun f => if f = cacheFilename "p" ⟨2024, 5, 1⟩ then some CacheFile.corrupt else none
     env.cacheConfigured = true ∧
     fs (cacheFilename "p" ⟨2024, 5, 1⟩) = some CacheFile.corrupt ∧
     ((get_cached_fetch env ⟨2024, 5, 1⟩ fs "u" "p").1 = fetchJson env "u" ∧
      (get_cached_fetch env ⟨2024, 5, 1⟩ fs "u" "p").2.2 = 1 ∧
      (fetchJson env "u" = none →
        (get_cached_fetch env ⟨2024, 5, 1⟩ fs "u" "p").2.1 = fs) ∧
      (get_cached_fetch env ⟨2024, 5, 1⟩ fs "u" "p").2.1
          (cacheFilename "p" ⟨2024, 5, 1⟩) ≠ none)) :=
  ⟨rfl, by simp,
   c4_corrupt_file_is_miss _ ⟨2024, 5, 1⟩ _ "u" "p" rfl (by simp)⟩

/-- Null condition of the amended C5, written from the spec's words: the
raw fetch yields null on a request failure, an HTTP status in 400..599, an
empty body, a malformed body, or a body that is the JSON text null (the
parsed value is Python None, indistinguishable from the failure return). -/
def nullCondSpec : HttpResponse → Bool
  | HttpResponse.failure => true
  | HttpResponse.response status body =>
    (decide (400 ≤ status) && decide (status < 600)) ||
    (match body with
     | Body.empty => true
     | Body.malformed => true
     | Body.wellFormed Json.null => true
     | Body.wellFormed _ => false)

/-- C5 counterexample: the claim fails in both directions. A response with
status 300 (non-2xx, but `raise_for_status` raises only for 400..599) and
a well-formed non-null JSON body is returned parsed, not null; and a 200
response whose valid JSON body is the text null is answered with null,
not a parsed value, although none of the claim's failure conditions holds. -/
theorem c5_non2xx_counterexample :
    (¬ (200 ≤ 300 ∧ 300 < 300) ∧
     get_jsonparsed_data (HttpResponse.response 300 (Body.wellFormed (Json.arr []))) =
       some (Json.arr [])) ∧
    ((200 ≤ 200 ∧ 200 < 300) ∧
     get_jsonparsed_data (HttpResponse.response 200 (Body.wellFormed Json.null)) =
       none) := by
  exact ⟨⟨by decide, rfl⟩, ⟨by decide, rfl⟩⟩

/-- C5 (amended): `get_jsonparsed_data` returns null exactly on a request
failure, a status in 400..599, an empty body, a malformed body or a body
parsing to JSON null (it never raises: every exception is caught); a body
parsing to a non-null JSON value with any status outside 400..599 is
returned parsed. -/
theorem c5_null_exactly_on_failure :
    (∀ resp : HttpResponse,
      (get_jsonparsed_data resp = none ↔ nullCondSpec resp = true)) ∧
    (∀ (status : Nat) (j : Json), ¬ (400 ≤ status ∧ status < 600) →
      j ≠ Json.null →
      get_jsonparsed_data (HttpResponse.response status (Body.wellFormed j)) = some j) := by
  constructor
  · intro resp
    cases resp with
    | failure => simp [get_jsonparsed_data, nullCondSpec]
    | response status body =>
      by_cases h : 400 ≤ status ∧ status < 600
      · simp [get_jsonparsed_data, nullCondSpec, h, h.1, h.2]
      · cases body with
        | empty => simp [get_jsonparsed_data, nullCondSpec, h]
        | malformed => simp [get_jsonparsed_data, nullCondSpec, h]
        | wellFormed j =>
          cases j <;> simp [get_jsonparsed_data, nullCondSpec, h]
  · intro status j hs hj
    cases j with
    | null => exact absurd rfl hj
    | bool b => simp [get_jsonparsed_data, hs]
    | num n => simp [get_jsonparsed_data, hs]
    | str s => simp [get_jsonparsed_data, hs]
    | arr elems => simp [get_jsonparsed_data, hs]
    | obj entries => simp [get_jsonparsed_data, hs]

/-- C5 witness: a 200 response whose body parses to a non-null JSON value
is returned parsed. -/
theorem c5_null_exactly_on_failure_witness :
    ¬ (400 ≤ 200 ∧ 200 < 600) ∧ Json.arr [] ≠ Json.null ∧
    get_jsonparsed_data (HttpResponse.response 200 (Body.wellFormed (Json.arr []))) =
      some (Json.arr []) :=
  ⟨by decide, fun h => Json.noConfusion h,
   c5_null_exactly_on_failure.2 200 (Json.arr []) (by decide)
     (fun h => Json.noConfusion h)⟩

/-- The in-memory daily price map `TodayPrices`. The Python dict is keyed
by the quote's symbol value; it is modelled as an association list where
insertion prepends and lookup takes the most recent binding, which agrees
with the dict on every lookup the server performs (always by a string
ticker). -/
abbrev PriceMap := List (Json × Json)

/-- Whether a map binding's key is the string `t` (Python dict key
equality against a string ticker). -/
def isSymbolKey (t : String) (p : Json × Json) : Bool :=
  match p.1 with
  | Json.str s => s == t
  | _ => false

/-- Python `ticker in TodayPrices` / `TodayPrices[ticker]` for a string
ticker: the most recently inserted binding whose key is that string. -/
def priceLookup (m : PriceMap) (ticker : String) : Option Json :=
  (m.find? (isSymbolKey ticker)).map Prod.snd

/-- One iteration of the merge loop (lines 251-258): a dict item with
`symbol` and `price` keys and a non-null price is written to the map,
everything else is skipped. -/
def mergeQuoteItem (m : PriceMap) (item : Json) : PriceMap :=
  match item with
  | Json.obj entries =>
    match entries.lookup "symbol", entries.lookup "price" with
    | some sym, some price =>
      match price with
      | Json.null => m
      | _ => (sym, price) :: m
    | _, _ => m
  | _ => m

/-- Merge one exchange's quote list into the price map. -/
def mergeQuotes (m : PriceMap) (items : List Json) : PriceMap :=
  items.foldl mergeQuoteItem m

/-- List of exchanges fetched by `get_todays_price` (line 234). -/
def exchanges : List String := ["NASDAQ", "NYSE", "AMEX"]

/-- Quote-list URL for one exchange (line 241). -/
def quotesUrl (env : Env) (exchange : String) : String :=
  "https://financialmodelingprep.com/api/v3/quotes/" ++ exchange ++
    "?apikey=" ++ env.apiKey

/-- The two process-lifetime pieces of state `get_todays_price` touches:
the in-memory price map and the on-disk cache directory. -/
structure PriceState where
  todayPrices : PriceMap
  fs : CacheFS

/-- One record per exchange iteration of the miss path: the URL and
filename prefix handed to `get_cached_fetch` and the payload it returned. -/
structure QuoteFetch where
  url : String
  fnamePfx : String
  payload : Option Json

/-- The `for exchange in exchanges` loop of `get_todays_price` (lines
240-262): threads the cache directory and the price map, records one
`QuoteFetch` per exchange and sums the upstream fetches. -/
def fetchQuotesLoop (env : Env) (now : DateTime) (today : String) :
    List String → CacheFS → PriceMap → CacheFS × PriceMap × List QuoteFetch × Nat
  | [], fs, m => (fs, m, [], 0)
  | exchange :: rest, fs, m =>
    let url := quotesUrl env exchange
    let pfx := exchange ++ "_quotes_" ++ today
    let r := get_cached_fetch env now fs url pfx
    let m2 :=
      match r.1 with
      | some (Json.arr items) => mergeQuotes m items
      | _ => m
    let rest2 := fetchQuotesLoop env now today rest r.2.1 m2
    (rest2.1, rest2.2.1, ⟨url, pfx, r.1⟩ :: rest2.2.2.1, r.2.2 + rest2.2.2.2)

/-- Embedding of `get_todays_price` (lines 215-270): the returned envelope,
the state afterwards, the cache requests of the miss path and the number
of upstream fetches. The ticker is upper-cased first; a hit returns the
cached price; a miss clears the whole map, runs the exchange loop and
looks the ticker up once more. -/
def get_todays_price (env : Env) (now : DateTime) (today : String)
    (st : PriceState) (ticker : String) :
    Json × PriceState × List QuoteFetch × Nat :=
  let t := pyUpper ticker
  match priceLookup st.todayPrices t with
  | some p => (Json.obj [("symbol", Json.str t), ("price", p)], st, [], 0)
  | none =>
    let r := fetchQuotesLoop env now today exchanges st.fs []
    match priceLookup r.2.1 t with
    | some p =>
      (Json.obj [("symbol", Json.str t), ("price", p)], ⟨r.2.1, r.1⟩,
       r.2.2.1, r.2.2.2)
    | none =>
      (Json.obj [("error", Json.str ("Price not found for ticker " ++ t))],
       ⟨r.2.1, r.1⟩, r.2.2.1, r.2.2.2)

/-- A quote item carrying symbol `t` with a non-null price. -/
def goodQuote (t : String) (item : Json) : Prop :=
  match item with
  | Json.obj entries =>
    entries.lookup "symbol" = some (Json.str t) ∧
    ∃ price, entries.lookup "price" = some price ∧ price ≠ Json.null
  | _ => False

theorem priceLookup_cons_ne_none (k v : Json) (m : PriceMap) (t : String)
    (h : priceLookup m t ≠ none) :
    priceLookup ((k, v) :: m) t ≠ none := by
  unfold priceLookup at h ⊢
  by_cases hk : isSymbolKey t (k, v) = true
  · rw [List.find?_cons_of_pos _ hk]
    simp
  · rw [List.find?_cons_of_neg _ hk]
    exact h

theorem priceLookup_cons_self (price : Json) (m : PriceMap) (t : String) :
    priceLookup ((Json.str t, price) :: m) t ≠ none := by
  unfold priceLookup
  rw [List.find?_cons_of_pos _ (by simp [isSymbolKey])]
  simp

theorem priceLookup_mergeQuoteItem_preserved (m : PriceMap) (item : Json)
    (t : String) (h : priceLookup m t ≠ none) :
    priceLookup (mergeQuoteItem m item) t ≠ none := by
  cases item with
  | null => exact h
  | bool b => exact h
  | num n => exact h
  | str s => exact h
  | arr elems => exact h
  | obj entries =>
    simp only [mergeQuoteItem]
    cases hs : entries.lookup "symbol" with
    | none => exact h
    | some sym =>
      cases hp : entries.lookup "price" with
      | none => exact h
      | some price =>
        cases price with
        | null => exact h
        | bool b => exact priceLookup_cons_ne_none _ _ _ _ h
        | num n => exact priceLookup_cons_ne_none _ _ _ _ h
        | str s => exact priceLookup_cons_ne_none _ _ _ _ h
        | arr elems => exact priceLookup_cons_ne_none _ _ _ _ h
        | obj es => exact priceLookup_cons_ne_none _ _ _ _ h

theorem priceLookup_mergeQuoteItem_good (m : PriceMap) (item : Json)
    (t : String) (h : goodQuote t item) :
    priceLookup (mergeQuoteItem m item) t ≠ none := by
  cases item with
  | null => exact h.elim
  | bool b => exact h.elim
  | num n => exact h.elim
  | str s => exact h.elim
  | arr elems => exact h.elim
  | obj entries =>
    obtain ⟨hs, price, hp, hnn⟩ := h
    simp only [mergeQuoteItem]
    rw [hs, hp]
    cases price with
    | null => exact absurd rfl hnn
    | bool b => exact priceLookup_cons_self _ _ _
    | num n => exact priceLookup_cons_self _ _ _
    | str s => exact priceLookup_cons_self _ _ _
    | arr elems => exact priceLookup_cons_self _ _ _
    | obj es => exact priceLookup_cons_self _ _ _

theorem priceLookup_mergeQuotes (m : PriceMap) (items : List Json)
    (t : String)
    (h : priceLookup m t ≠ none ∨ ∃ item ∈ items, goodQuote t item) :
    priceLookup (mergeQuotes m items) t ≠ none := by
  induction items generalizing m with
  | nil =>
    rcases h with h | ⟨item, hmem, _⟩
    · exact h
    · simp at hmem
  | cons item rest ih =>
    have hstep : mergeQuotes m (item :: rest) =
        mergeQuotes (mergeQuoteItem m item) rest := by
      simp [mergeQuotes]
    rw [hstep]
    apply ih
    rcases h with h | ⟨x, hmem, hg⟩
    · exact Or.inl (priceLookup_mergeQuoteItem_preserved _ _ _ h)
    · rcases List.mem_cons.mp hmem with rfl | hmem2
      · exact Or.inl (priceLookup_mergeQuoteItem_good _ _ _ hg)
      · exact Or.inr ⟨x, hmem2, hg⟩

theorem priceLookup_fetchQuotesLoop (env : Env) (now : DateTime)
    (today : String) (es : List String) (fs : CacheFS) (m : PriceMap)
    (t : String)
    (h : priceLookup m t ≠ none ∨
      ∃ qf ∈ (fetchQuotesLoop env now today es fs m).2.2.1, ∃ items,
        qf.payload = some (Json.arr items) ∧ ∃ item ∈ items, goodQuote t item) :
    priceLookup (fetchQuotesLoop env now today es fs m).2.1 t ≠ none := by
  induction es generalizing fs m with
  | nil =>
    rcases h with h | ⟨qf, hmem, _⟩
    · exact h
    · simp [fetchQuotesLoop] at hmem
  | cons e rest ih =>
    simp only [fetchQuotesLoop] at h ⊢
    apply ih
    rcases h with h | ⟨qf, hmem, items, hpay, hit⟩
    · left
      cases hr : (get_cached_fetch env now fs (quotesUrl env e)
          (e ++ "_quotes_" ++ today)).1 with
      | none => simpa [hr] using h
      | some j =>
        cases j with
        | arr items => exact priceLookup_mergeQuotes _ _ _ (Or.inl h)
        | null => simpa [hr] using h
        | bool b => simpa [hr] using h
        | num n => simpa [hr] using h
        | str s => simpa [hr] using h
        | obj entries => simpa [hr] using h
    · rcases List.mem_cons.mp hmem with rfl | hmem2
      · left
        simp only at hpay
        rw [hpay]
        exact priceLookup_mergeQuotes _ _ _ (Or.inr hit)
      · right
        exact ⟨qf, hmem2, items, hpay, hit⟩

theorem fetchQuotesLoop_requests (env : Env) (now : DateTime)
    (today : String) (es : List String) (fs : CacheFS) (m : PriceMap) :
    (fetchQuotesLoop env now today es fs m).2.2.1.map
        (fun qf => (qf.url, qf.fnamePfx)) =
      es.map (fun e => (quotesUrl env e, e ++ "_quotes_" ++ today)) := by
  induction es generalizing fs m with
  | nil => rfl
  | cons e rest ih => simp [fetchQuotesLoop, ih]

/-- C6: on a miss (the upper-cased ticker absent from the in-memory map)
`get_todays_price` issues exactly one cache-store request per fixed
exchange (NASDAQ, NYSE, AMEX, in order); the whole map is cleared first,
so the outcome is the one obtained from an empty map; a ticker whose
symbol appears with a non-null price in any fetched exchange list is in
the map afterwards and the call returns its success envelope; if the
ticker is still absent after the merge the call returns the error
envelope. -/
theorem c6_miss_fetches_all_exchanges (env : Env) (now : DateTime)
    (today : String) (st : PriceState) (ticker : String)
    (hmiss : priceLookup st.todayPrices (pyUpper ticker) = none) :
    ((get_todays_price env now today st ticker).2.2.1.map
        (fun qf => (qf.url, qf.fnamePfx)) =
      exchanges.map (fun e => (quotesUrl env e, e ++ "_quotes_" ++ today))) ∧
    (get_todays_price env now today st ticker =
      get_todays_price env now today ⟨[], st.fs⟩ ticker) ∧
    ((∃ qf ∈ (get_todays_price env now today st ticker).2.2.1, ∃ items,
        qf.payload = some (Json.arr items) ∧
        ∃ item ∈ items, goodQuote (pyUpper ticker) item) →
      ∃ p, priceLookup (get_todays_price env now today st ticker).2.1.todayPrices
            (pyUpper ticker) = some p ∧
        (get_todays_price env now today st ticker).1 =
          Json.obj [("symbol", Json.str (pyUpper ticker)), ("price", p)]) ∧
    (priceLookup (get_todays_price env now today st ticker).2.1.todayPrices
        (pyUpper ticker) = none →
      (get_todays_price env now today st ticker).1 =
        Json.obj [("error", Json.str ("Price not found for ticker " ++ pyUpper ticker))]) := by
  have h0 : priceLookup ([] : PriceMap) (pyUpper ticker) = none := rfl
  refine ⟨?_, ?_, ?_, ?_⟩
  · simp only [get_todays_price, hmiss]
    cases hl : priceLookup
        (fetchQuotesLoop env now today exchanges st.fs []).2.1 (pyUpper ticker) <;>
      simp [fetchQuotesLoop_requests]
  · simp only [get_todays_price, hmiss, h0]
  · intro h
    simp only [get_todays_price, hmiss] at h ⊢
    cases hl : priceLookup
        (fetchQuotesLoop env now today exchanges st.fs []).2.1 (pyUpper ticker) with
    | none =>
      exfalso
      apply priceLookup_fetchQuotesLoop env now today exchanges st.fs []
        (pyUpper ticker) _ hl
      right
      simpa [hl] using h
    | some p => exact ⟨p, by simp [hl], by simp [hl]⟩
  · intro h
    simp only [get_todays_price, hmiss] at h ⊢
    cases hl : priceLookup
        (fetchQuotesLoop env now today exchanges st.fs []).2.1 (pyUpper ticker) with
    | none => simp [hl]
    | some p => simp [hl] at h

/-- C6 witness: an empty map, an environment whose quote lists all carry
AAPL with a non-null price, and the concrete miss hypothesis discharged. -/
theorem c6_miss_fetches_all_exchanges_witness :
    (let env : Env :=
      { cacheConfigured := true, writeOk := true,
        http := fun _ => HttpResponse.response 200 (Body.wellFormed
          (Json.arr [Json.obj [("symbol", Json.str "AAPL"),
                               ("price", Json.num 150)]])),
        csvDownload := fun _ => none, apiKey := "k" }
     let st : PriceState := ⟨[], fun _ => none⟩
     priceLookup st.todayPrices (pyUpper "AAPL") = none ∧
     (((get_todays_price env ⟨2024, 5, 1⟩ "2024-05-01" st "AAPL").2.2.1.map
          (fun qf => (qf.url, qf.fnamePfx)) =
        exchanges.map (fun e => (quotesUrl env e, e ++ "_quotes_" ++ "2024-05-01"))) ∧
      (get_todays_price env ⟨2024, 5, 1⟩ "2024-05-01" st "AAPL" =
        get_todays_price env ⟨2024, 5, 1⟩ "2024-05-01" ⟨[], st.fs⟩ "AAPL") ∧
      ((∃ qf ∈ (get_todays_price env ⟨2024, 5, 1⟩ "2024-05-01" st "AAPL").2.2.1,
          ∃ items, qf.payload = some (Json.arr items) ∧
            ∃ item ∈ items, goodQuote (pyUpper "AAPL") item) →
        ∃ p, priceLookup
              (get_todays_price env ⟨2024, 5, 1⟩ "2024-05-01" st "AAPL").2.1.todayPrices
              (pyUpper "AAPL") = some p ∧
          (get_todays_price env ⟨2024, 5, 1⟩ "2024-05-01" st "AAPL").1 =
            Json.obj [("symbol", Json.str (pyUpper "AAPL")), ("price", p)]) ∧
      (priceLookup
          (get_todays_price env ⟨2024, 5, 1⟩ "2024-05-01" st "AAPL").2.1.todayPrices
          (pyUpper "AAPL") = none →
        (get_todays_price env ⟨2024, 5, 1⟩ "2024-05-01" st "AAPL").1 =
          Json.obj [("error",
            Json.str ("Price not found for ticker " ++ pyUpper "AAPL"))]))) :=
  ⟨rfl, c6_miss_fetches_all_exchanges _ ⟨2024, 5, 1⟩ "2024-05-01" _ "AAPL" rfl⟩

theorem char_ofNat_toNat_valid (n : Nat) (h : n.isValidChar) :
    (Char.ofNat n).toNat = n := by
  rw [Char.ofNat, dif_pos h]
  rfl

theorem char_toUpper_toUpper (c : Char) : c.toUpper.toUpper = c.toUpper := by
  simp only [Char.toUpper]
  by_cases h : c.toNat ≥ 97 ∧ c.toNat ≤ 122
  · rw [if_pos h]
    have hv : (c.toNat - 32).isValidChar := Or.inl (by omega)
    rw [if_neg]
    rw [char_ofNat_toNat_valid _ hv]
    omega
  · rw [if_neg h, if_neg h]

theorem pyUpper_pyUpper (s : String) : pyUpper (pyUpper s) = pyUpper s := by
  have hl : ∀ l : List Char,
      (l.map Char.toUpper).map Char.toUpper = l.map Char.toUpper := by
    intro l
    induction l with
    | nil => rfl
    | cons c cs ih => simp [char_toUpper_toUpper, ih]
  unfold pyUpper
  exact congrArg String.mk (hl s.data)

/-- C10: `get_todays_price` upper-cases its ticker first, so it is
case-insensitive: the call on `t` equals the call on the upper-cased `t`
in every state and environment, and whenever the result is not an error
envelope its symbol field is the upper-cased ticker. -/
theorem c10_ticker_case_insensitive (env : Env) (now : DateTime)
    (today : String) (st : PriceState) (ticker : String) :
    (get_todays_price env now today st ticker =
      get_todays_price env now today st (pyUpper ticker)) ∧
    (jsonLookup (get_todays_price env now today st ticker).1 "error" = none →
      jsonLookup (get_todays_price env now today st ticker).1 "symbol" =
        some (Json.str (pyUpper ticker))) := by
  constructor
  · unfold get_todays_price
    rw [pyUpper_pyUpper]
  · intro herr
    simp only [get_todays_price] at herr ⊢
    cases h1 : priceLookup st.todayPrices (pyUpper ticker) with
    | some p =>
      simp only [h1]
      rfl
    | none =>
      simp only [h1] at herr ⊢
      cases h2 : priceLookup
          (fetchQuotesLoop env now today exchanges st.fs []).2.1 (pyUpper ticker) with
      | some p =>
        simp only [h2]
        rfl
      | none =>
        simp only [h2] at herr
        exact Option.noConfusion herr

/-- C10 witness: with AAPL cached, the call on "aapl" equals the call on
"AAPL", its result is not an error envelope and carries symbol "AAPL". -/
theorem c10_ticker_case_insensitive_witness :
    (let env : Env :=
      { cacheConfigured := true, writeOk := true,
        http := fun _ => HttpResponse.failure,
        csvDownload := fun _ => none, apiKey := "k" }
     let st : PriceState := ⟨[(Json.str "AAPL", Json.num 150)], fun _ => none⟩
     (get_todays_price env ⟨2024, 5, 1⟩ "2024-05-01" st "aapl" =
        get_todays_price env ⟨2024, 5, 1⟩ "2024-05-01" st (pyUpper "aapl")) ∧
     jsonLookup (get_todays_price env ⟨2024, 5, 1⟩ "2024-05-01" st "aapl").1
        "error" = none ∧
     jsonLookup (get_todays_price env ⟨2024, 5, 1⟩ "2024-05-01" st "aapl").1
        "symbol" = some (Json.str (pyUpper "aapl"))) :=
  ⟨(c10_ticker_case_insensitive _ ⟨2024, 5, 1⟩ "2024-05-01" _ "aapl").1, rfl,
   (c10_ticker_case_insensitive _ ⟨2024, 5, 1⟩ "2024-05-01" _ "aapl").2 rfl⟩

/-- The in-memory bulk profile cache `savedProfile`: a Python dict keyed
by ticker symbol, as an association list with unique keys in insertion
order. -/
abbrev ProfileMap := List (String × Row)

/-- Python `savedProfile[sym] = row` (line 201): update the binding in
place when the key exists, append it otherwise. -/
def profileInsert (m : ProfileMap) (sym : String) (row : Row) : ProfileMap :=
  if m.any (fun p => p.1 == sym) then
    m.map (fun p => if p.1 == sym then (sym, row) else p)
  else
    m ++ [(sym, row)]

/-- One iteration of the population loop (lines 197-203): a row whose
Symbol field is present and non-empty (Python truthiness) is written to
the map under that symbol; every other row is skipped. -/
def profileAddRow (m : ProfileMap) (row : Row) : ProfileMap :=
  match row.lookup "Symbol" with
  | some s => if s = "" then m else profileInsert m s row
  | none => m

/-- The population loop over the parsed CSV rows, starting from the
cleared map (line 196 clears before repopulating). -/
def populateProfiles (rows : List Row) : ProfileMap :=
  rows.foldl profileAddRow []

/-- Row filter of the population loop: the Symbol field exists and is
non-empty. -/
def validSymbolRow (r : Row) : Bool :=
  match r.lookup "Symbol" with
  | some t => !(t == "")
  | none => false

/-- The binding C8 predicts for symbol `s`: the most recent row whose
Symbol field is the non-empty string `s`. -/
def lastRowFor (rows : List Row) (s : String) : Option Row :=
  rows.reverse.find? (fun r => r.lookup "Symbol" == some s && !(s == ""))

/-- The process state touched by the profile cache: the in-memory map and
the cache directory holding the bulk CSV file. -/
structure ProfileState where
  savedProfile : ProfileMap
  csvFiles : String → Option CsvFile

/-- Monthly CSV file name derived by `initialize_saved_profile_cache`
(line 170; the constant `CACHE_DIR` path component is omitted). -/
def profileCsvFilename (now : DateTime) : String :=
  "profile_bulk_" ++ toString now.year ++ "_" ++ toString now.month ++ ".csv"

/-- Bulk profile download URL (line 171). -/
def profileCsvUrl (env : Env) : String :=
  "https://financialmodelingprep.com/api/v4/profile/all?apikey=" ++ env.apiKey

/-- Write the downloaded CSV bytes to the cache directory (line 178). -/
def writeCsvFile (st : ProfileState) (name : String) (content : CsvFile) :
    ProfileState :=
  { st with csvFiles := fun f => if f = name then some content else st.csvFiles f }

/-- Parse the CSV file and repopulate the map (lines 188-206): a read or
parse failure returns False with the map untouched; success clears the
map, indexes the rows by Symbol and returns True. -/
def parseAndPopulate (now : DateTime) (st : ProfileState) : Bool × ProfileState :=
  match st.csvFiles (profileCsvFilename now) with
  | some (CsvFile.rows rs) => (true, { st with savedProfile := populateProfiles rs })
  | _ => (false, st)

/-- Embedding of `initialize_saved_profile_cache` (lines 156-206): the
returned flag, the state afterwards, the number of bulk downloads and the
number of CSV parses performed. A non-empty map returns True at once; a
missing cache directory returns False; a missing CSV file is downloaded
first (a download or write failure returns False with nothing written);
then the file is parsed and the map repopulated. -/
def initialize_saved_profile_cache (env : Env) (now : DateTime)
    (st : ProfileState) : Bool × ProfileState × Nat × Nat :=
  if 0 < st.savedProfile.length then
    (true, st, 0, 0)
  else if env.cacheConfigured = false then
    (false, st, 0, 0)
  else
    match st.csvFiles (profileCsvFilename now) with
    | some _ =>
      ((parseAndPopulate now st).1, (parseAndPopulate now st).2, 0, 1)
    | none =>
      match env.csvDownload (profileCsvUrl env) with
      | none => (false, st, 1, 0)
      | some content =>
        ((parseAndPopulate now (writeCsvFile st (profileCsvFilename now) content)).1,
         (parseAndPopulate now (writeCsvFile st (profileCsvFilename now) content)).2,
         1, 1)

/-- Counters of the observable operations of one `get_profile` call:
calls into the initialization routine, bulk CSV downloads, CSV parses. -/
structure ProfOps where
  initCalls : Nat
  downloads : Nat
  csvParses : Nat

/-- A profile row reshaped as the JSON envelope `get_profile` returns. -/
def rowToJson (row : Row) : Json :=
  Json.obj (row.map (fun kv => (kv.1, Json.str kv.2)))

/-- The lookup phase of `get_profile` (lines 291-303): a direct map read;
a miss calls the initialization routine once more and rechecks; a second
miss yields the not-found envelope. Returns the envelope, the state and
(initialization calls, downloads, parses) of this phase. -/
def get_profile_lookup (env : Env) (now : DateTime) (st : ProfileState)
    (t : String) : Json × ProfileState × Nat × Nat × Nat :=
  match st.savedProfile.lookup t with
  | some row => (rowToJson row, st, 0, 0, 0)
  | none =>
    match initialize_saved_profile_cache env now st with
    | (ok, st2, d, p) =>
      if ok then
        match st2.savedProfile.lookup t with
        | some row => (rowToJson row, st2, 1, d, p)
        | none =>
          (Json.obj [("error", Json.str ("Profile not found for ticker " ++ t))],
           st2, 1, d, p)
      else
        (Json.obj [("error", Json.str ("Profile not found for ticker " ++ t))],
         st2, 1, d, p)

/-- Embedding of `get_profile` (lines 274-303): upper-case the ticker; an
empty map is initialized first (a failure returns the failed-to-initialize
envelope); then the lookup phase runs. -/
def get_profile (env : Env) (now : DateTime) (st : ProfileState)
    (ticker : String) : Json × ProfileState × ProfOps :=
  let t := pyUpper ticker
  if st.savedProfile.isEmpty then
    match initialize_saved_profile_cache env now st with
    | (ok, st1, d, p) =>
      if ok then
        match get_profile_lookup env now st1 t with
        | (j, st2, i2, d2, p2) => (j, st2, ⟨1 + i2, d + d2, p + p2⟩)
      else
        (Json.obj [("error",
           Json.str ("Failed to initialize profile cache for ticker " ++ t))],
         st1, ⟨1, d, p⟩)
  else
    match get_profile_lookup env now st t with
    | (j, st2, i2, d2, p2) => (j, st2, ⟨i2, d2, p2⟩)

/-- C7 counterexample: with the bulk cache populated (one AAPL record) and
a lookup for the absent MSFT, `get_profile` returns the not-found envelope
after a refresh attempt that parses no CSV at all: the initialization
routine returns at its first guard because the map is non-empty, so the
re-parse the claim describes does not take place (0 parses, not 1). -/
theorem c7_refresh_does_not_reparse_counterexample :
    (let env : Env :=
      { cacheConfigured := true, writeOk := true,
        http := fun _ => HttpResponse.failure,
        csvDownload := fun _ => none, apiKey := "k" }
     let st : ProfileState := ⟨[("AAPL", [("Symbol", "AAPL")])], fun _ => none⟩
     (get_profile env ⟨2024, 5, 1⟩ st "MSFT").1 =
        Json.obj [("error", Json.str "Profile not found for ticker MSFT")] ∧
     (get_profile env ⟨2024, 5, 1⟩ st "MSFT").2.2.csvParses = 0 ∧
     ¬ ((get_profile env ⟨2024, 5, 1⟩ st "MSFT").2.2.csvParses = 1)) :=
  ⟨rfl, rfl, by decide⟩

/-- C7 (amended): once the bulk profile cache is populated (the map is
non-empty), a `get_profile` lookup that misses the map triggers exactly
one call into the initialization routine, which returns immediately
without re-downloading or re-parsing the CSV because the map is non-empty;
the state is unchanged and the not-found envelope is returned. (The CSV is
re-parsed only when the map is empty, that is, when initial population
failed.) -/
theorem c7_miss_refresh_is_noop (env : Env) (now : DateTime)
    (st : ProfileState) (ticker : String)
    (hpop : st.savedProfile ≠ [])
    (hmiss : st.savedProfile.lookup (pyUpper ticker) = none) :
    get_profile env now st ticker =
      (Json.obj [("error",
         Json.str ("Profile not found for ticker " ++ pyUpper ticker))],
       st, ⟨1, 0, 0⟩) := by
  have hie : st.savedProfile.isEmpty = false := by
    cases h : st.savedProfile with
    | nil => exact absurd h hpop
    | cons a l => rfl
  have hlen : 0 < st.savedProfile.length := List.length_pos.mpr hpop
  simp only [get_profile, hie, Bool.false_eq_true, if_false,
    get_profile_lookup, hmiss, initialize_saved_profile_cache, hlen, if_true]

/-- C7 witness: a concrete populated map missing TSLA, the hypotheses
discharged and the no-reparse refresh conclusion instantiated. -/
theorem c7_miss_refresh_is_noop_witness :
    (let env : Env :=
      { cacheConfigured := true, writeOk := true,
        http := fun _ => HttpResponse.failure,
        csvDownload := fun _ => none, apiKey := "k" }
     let st : ProfileState := ⟨[("AAPL", [("Symbol", "AAPL")])], fun _ => none⟩
     st.savedProfile ≠ [] ∧
     st.savedProfile.lookup (pyUpper "TSLA") = none ∧
     get_profile env ⟨2024, 5, 1⟩ st "TSLA" =
       (Json.obj [("error",
          Json.str ("Profile not found for ticker " ++ pyUpper "TSLA"))],
        st, ⟨1, 0, 0⟩)) :=
  ⟨by decide, rfl,
   c7_miss_refresh_is_noop _ ⟨2024, 5, 1⟩ _ "TSLA" (by decide) rfl⟩

theorem string_beq_false (a b : String) (h : a ≠ b) : (a == b) = false := by
  cases hab : a == b with
  | false => rfl
  | true => exact absurd (eq_of_beq hab) h

theorem profile_lookup_cons_eq (k : String) (v : Row) (es : ProfileMap) :
    ((k, v) :: es).lookup k = some v := by
  rw [List.lookup_cons, beq_self_eq_true]

theorem profile_lookup_cons_ne (k t : String) (v : Row) (es : ProfileMap)
    (h : t ≠ k) : ((k, v) :: es).lookup t = es.lookup t := by
  rw [List.lookup_cons, string_beq_false t k h]

theorem lookup_map_update (m : ProfileMap) (s : String) (row : Row)
    (t : String) :
    (m.map (fun p => if p.1 == s then (s, row) else p)).lookup t =
      if t = s then (if m.any (fun p => p.1 == s) then some row else none)
      else m.lookup t := by
  induction m with
  | nil => by_cases h : t = s <;> simp [h]
  | cons hd m ih =>
    obtain ⟨k, v⟩ := hd
    by_cases hks : k = s
    · subst hks
      simp only [List.map_cons, beq_self_eq_true, if_true, List.any_cons,
        Bool.true_or]
      by_cases hts : t = k
      · subst hts
        rw [profile_lookup_cons_eq]
        simp
      · rw [profile_lookup_cons_ne _ _ _ _ hts, profile_lookup_cons_ne _ _ _ _ hts,
          ih, if_neg hts, if_neg hts]
    · simp only [List.map_cons, string_beq_false k s hks, Bool.false_eq_true,
        if_false, List.any_cons, Bool.false_or]
      by_cases htk : t = k
      · subst htk
        rw [profile_lookup_cons_eq, profile_lookup_cons_eq, if_neg hks]
      · rw [profile_lookup_cons_ne _ _ _ _ htk, profile_lookup_cons_ne _ _ _ _ htk,
          ih]

theorem lookup_append_profile (m1 m2 : ProfileMap) (t : String) :
    (m1 ++ m2).lookup t =
      match m1.lookup t with
      | some v => some v
      | none => m2.lookup t := by
  induction m1 with
  | nil => simp
  | cons hd m ih =>
    obtain ⟨k, v⟩ := hd
    by_cases htk : t = k
    · subst htk
      rw [List.cons_append, profile_lookup_cons_eq, profile_lookup_cons_eq]
    · rw [List.cons_append, profile_lookup_cons_ne _ _ _ _ htk,
        profile_lookup_cons_ne _ _ _ _ htk, ih]

theorem any_eq_false_lookup_none (m : ProfileMap) (s : String)
    (h : m.any (fun p => p.1 == s) = false) : m.lookup s = none := by
  induction m with
  | nil => rfl
  | cons hd m ih =>
    obtain ⟨k, v⟩ := hd
    simp only [List.any_cons, Bool.or_eq_false_iff] at h
    have hk : s ≠ k := by
      intro hh
      rw [hh] at h
      simp at h
    rw [profile_lookup_cons_ne _ _ _ _ hk]
    exact ih h.2

theorem lookup_profileInsert (m : ProfileMap) (s : String) (row : Row)
    (t : String) :
    (profileInsert m s row).lookup t = if t = s then some row else m.lookup t := by
  unfold profileInsert
  by_cases hmem : m.any (fun p => p.1 == s) = true
  · rw [if_pos hmem, lookup_map_update, hmem]
    by_cases hts : t = s <;> simp [hts]
  · have hmem2 : m.any (fun p => p.1 == s) = false := by
      cases hq : m.any (fun p => p.1 == s) with
      | false => rfl
      | true => exact absurd hq hmem
    rw [if_neg hmem, lookup_append_profile]
    by_cases hts : t = s
    · subst hts
      rw [any_eq_false_lookup_none m t hmem2, profile_lookup_cons_eq]
      simp
    · rw [profile_lookup_cons_ne _ _ _ _ hts]
      cases hl : m.lookup t <;> simp [if_neg hts]

theorem profileAddRow_none (m : ProfileMap) (r : Row)
    (hs : r.lookup "Symbol" = none) : profileAddRow m r = m := by
  unfold profileAddRow
  rw [hs]

theorem profileAddRow_some (m : ProfileMap) (r : Row) (s : String)
    (hs : r.lookup "Symbol" = some s) :
    profileAddRow m r = if s = "" then m else profileInsert m s r := by
  unfold profileAddRow
  rw [hs]

theorem profileAddRow_invalid (m : ProfileMap) (r : Row)
    (h : validSymbolRow r = false) : profileAddRow m r = m := by
  cases hs : r.lookup "Symbol" with
  | none => exact profileAddRow_none m r hs
  | some s =>
    have h2 : (!(s == "")) = false := by
      unfold validSymbolRow at h
      rw [hs] at h
      exact h
    have hse : s = "" := by
      cases he : s == "" with
      | true => exact eq_of_beq he
      | false => rw [he] at h2; simp at h2
    rw [profileAddRow_some m r s hs, if_pos hse]

theorem lookup_foldl_addRow (rows : List Row) (m : ProfileMap) (t : String) :
    (rows.foldl profileAddRow m).lookup t =
      match rows.reverse.find?
          (fun r => r.lookup "Symbol" == some t && !(t == "")) with
      | some r => some r
      | none => m.lookup t := by
  induction rows generalizing m with
  | nil => simp
  | cons r rest ih =>
    rw [List.foldl_cons, ih, List.reverse_cons, List.find?_append]
    cases hf : rest.reverse.find?
        (fun r => r.lookup "Symbol" == some t && !(t == "")) with
    | some x => simp
    | none =>
      simp only [Option.none_or]
      rw [List.find?_cons]
      cases hp : (r.lookup "Symbol" == some t && !(t == "")) with
      | true =>
        simp only [Bool.and_eq_true] at hp
        have hsym : r.lookup "Symbol" = some t := eq_of_beq hp.1
        have ht : t ≠ "" := by
          intro he
          rw [he] at hp
          simp at hp
        rw [profileAddRow_some m r t hsym, if_neg ht, lookup_profileInsert,
          if_pos rfl]
      | false =>
        simp only [List.find?_nil]
        cases hs : r.lookup "Symbol" with
        | none => rw [profileAddRow_none m r hs]
        | some s =>
          rw [profileAddRow_some m r s hs]
          by_cases hse : s = ""
          · rw [if_pos hse]
          · rw [if_neg hse, lookup_profileInsert, if_neg]
            intro hts
            subst hts
            rw [hs] at hp
            simp only [beq_self_eq_true, Bool.true_and] at hp
            have hte : t = "" := by
              cases he : t == "" with
              | true => exact eq_of_beq he
              | false => rw [he] at hp; simp at hp
            exact hse hte

theorem profileInsert_keys_nodup (m : ProfileMap) (s : String) (row : Row)
    (h : (m.map Prod.fst).Nodup) :
    ((profileInsert m s row).map Prod.fst).Nodup := by
  unfold profileInsert
  by_cases hmem : m.any (fun p => p.1 == s) = true
  · rw [if_pos hmem]
    have hkeys : (m.map (fun p => if p.1 == s then (s, row) else p)).map Prod.fst =
        m.map Prod.fst := by
      rw [List.map_map]
      apply List.map_congr_left
      intro p hp
      by_cases hps : (p.1 == s) = true
      · simp only [Function.comp_apply, hps, if_true]
        exact (eq_of_beq hps).symm
      · simp only [Function.comp_apply]
        rw [if_neg hps]
    rw [hkeys]
    exact h
  · rw [if_neg hmem]
    have hs : s ∉ m.map Prod.fst := by
      intro hin
      obtain ⟨p, hp, hps⟩ := List.mem_map.mp hin
      exact hmem (List.any_eq_true.mpr ⟨p, hp, by simp [hps]⟩)
    rw [List.map_append]
    rw [List.nodup_append]
    refine ⟨h, List.nodup_singleton s, ?_⟩
    intro a ha hb
    simp only [List.map_cons, List.map_nil, List.mem_singleton] at hb
    subst hb
    exact hs ha

theorem foldl_addRow_keys_nodup (rows : List Row) (m : ProfileMap)
    (h : (m.map Prod.fst).Nodup) :
    ((rows.foldl profileAddRow m).map Prod.fst).Nodup := by
  induction rows generalizing m with
  | nil => exact h
  | cons r rest ih =>
    rw [List.foldl_cons]
    apply ih
    cases hs : r.lookup "Symbol" with
    | none => rw [profileAddRow_none m r hs]; exact h
    | some s =>
      rw [profileAddRow_some m r s hs]
      by_cases hse : s = ""
      · rw [if_pos hse]; exact h
      · rw [if_neg hse]; exact profileInsert_keys_nodup m s r h

theorem populate_filter_invalid (rows : List Row) (m : ProfileMap) :
    rows.foldl profileAddRow m = (rows.filter validSymbolRow).foldl profileAddRow m := by
  induction rows generalizing m with
  | nil => rfl
  | cons r rest ih =>
    rw [List.foldl_cons]
    cases hv : validSymbolRow r with
    | true => rw [List.filter_cons_of_pos hv, List.foldl_cons, ih]
    | false =>
      rw [List.filter_cons_of_neg (by simp [hv]), profileAddRow_invalid m r hv, ih]

/-- C8: populating the bulk profile cache from a parsed CSV row list gives
exactly one binding per distinct symbol (the key list has no duplicates),
the binding for a symbol is the last row carrying that non-empty symbol
(last row wins on duplicates), and rows with a missing or empty Symbol
field are excluded without affecting the entries built from valid rows
(populating the filtered row list yields the same map). -/
theorem c8_last_row_wins (rows : List Row) :
    ((populateProfiles rows).map Prod.fst).Nodup ∧
    (∀ s : String, (populateProfiles rows).lookup s = lastRowFor rows s) ∧
    populateProfiles rows = populateProfiles (rows.filter validSymbolRow) := by
  refine ⟨foldl_addRow_keys_nodup rows [] List.nodup_nil, ?_, ?_⟩
  · intro s
    rw [populateProfiles, lookup_foldl_addRow, lastRowFor]
    cases hf : rows.reverse.find?
        (fun r => r.lookup "Symbol" == some s && !(s == "")) <;> rfl
  · rw [populateProfiles, populateProfiles, populate_filter_invalid]

/-- Valid reporting periods (line 366): FMP uses `quarter`, not
`quarterly`. -/
def valid_periods : List String := ["annual", "quarter"]

/-- Statement type to API path component (lines 371-375). -/
def path_map (statement_type : String) : Option String :=
  match statement_type with
  | "income" => some "income-statement"
  | "balance" => some "balance-sheet-statement"
  | "cashflow" => some "cash-flow-statement"
  | _ => none

/-- Embedding of `_get_financial_statement` (lines 362-398): the envelope,
the cache directory afterwards, the upstream fetches performed and the
number of calls into the file cache store. The period is validated before
anything else; then the statement type is mapped; then one cached fetch
runs and its payload is reshaped. -/
def _get_financial_statement (env : Env) (now : DateTime) (fs : CacheFS)
    (ticker statement_type period : String) (limit : Int) :
    Json × CacheFS × Nat × Nat :=
  let t := pyUpper ticker
  let p := pyLower period
  if (valid_periods.contains p) = false then
    (Json.obj [("error", Json.str
       ("Invalid period '" ++ p ++ "'. Must be 'annual' or 'quarter'."))],
     fs, 0, 0)
  else
    match path_map statement_type with
    | none =>
      (Json.obj [("error", Json.str
         ("Invalid statement type '" ++ statement_type ++ "'."))], fs, 0, 0)
    | some pathComponent =>
      let pfx := t ++ "_" ++ p ++ "_" ++ statement_type ++ "_" ++ toString limit
      let url := "https://financialmodelingprep.com/api/v3/" ++ pathComponent ++
        "/" ++ t ++ "?period=" ++ p ++ "&limit=" ++ toString limit ++
        "&apikey=" ++ env.apiKey
      match get_cached_fetch env now fs url pfx with
      | (j, fs2, n) =>
        match j with
        | none =>
          (Json.obj [("error", Json.str
             ("Failed to fetch " ++ statement_type ++ " statement for " ++ t))],
           fs2, n, 1)
        | some (Json.obj []) => (Json.obj [("data", Json.arr [])], fs2, n, 1)
        | some (Json.arr xs) => (Json.obj [("data", Json.arr xs)], fs2, n, 1)
        | some (Json.obj entries) =>
          match entries.lookup "Error Message" with
          | some msg => (Json.obj [("error", msg)], fs2, n, 1)
          | none =>
            (Json.obj [("error", Json.str
               ("Unexpected data format received for " ++ statement_type ++
                " statement."))], fs2, n, 1)
        | some _ =>
          (Json.obj [("error", Json.str
             ("Unexpected data format received for " ++ statement_type ++
              " statement."))], fs2, n, 1)

/-- Embedding of `get_key_metrics` (lines 438-469): same shape as the
statement helper with the key-metrics URL, prefix and messages. -/
def get_key_metrics (env : Env) (now : DateTime) (fs : CacheFS)
    (ticker period : String) (limit : Int) : Json × CacheFS × Nat × Nat :=
  let t := pyUpper ticker
  let p := pyLower period
  if (valid_periods.contains p) = false then
    (Json.obj [("error", Json.str
       ("Invalid period '" ++ p ++ "'. Must be 'annual' or 'quarter'."))],
     fs, 0, 0)
  else
    let pfx := t ++ "_keymetrics_" ++ p ++ "_" ++ toString limit
    let url := "https://financialmodelingprep.com/api/v3/key-metrics/" ++ t ++
      "?period=" ++ p ++ "&limit=" ++ toString limit ++ "&apikey=" ++ env.apiKey
    match get_cached_fetch env now fs url pfx with
    | (j, fs2, n) =>
      match j with
      | none =>
        (Json.obj [("error", Json.str ("Failed to fetch key metrics for " ++ t))],
         fs2, n, 1)
      | some (Json.obj []) => (Json.obj [("data", Json.arr [])], fs2, n, 1)
      | some (Json.arr xs) => (Json.obj [("data", Json.arr xs)], fs2, n, 1)
      | some (Json.obj entries) =>
        match entries.lookup "Error Message" with
        | some msg => (Json.obj [("error", msg)], fs2, n, 1)
        | none =>
          (Json.obj [("error",
             Json.str "Unexpected data format received for key metrics.")],
           fs2, n, 1)
      | some _ =>
        (Json.obj [("error",
           Json.str "Unexpected data format received for key metrics.")],
         fs2, n, 1)

/-- C9: a period whose lower-cased form is neither annual nor quarter makes
the financial-statement helper and the key-metrics tool return the invalid
period error envelope at once: the cache directory is unchanged, zero
upstream fetches run and the file cache store is never consulted. -/
theorem c9_invalid_period_rejected (env : Env) (now : DateTime)
    (fs : CacheFS) (ticker statement_type period : String) (limit : Int)
    (h : valid_periods.contains (pyLower period) = false) :
    _get_financial_statement env now fs ticker statement_type period limit =
      (Json.obj [("error", Json.str
         ("Invalid period '" ++ pyLower period ++
          "'. Must be 'annual' or 'quarter'."))], fs, 0, 0) ∧
    get_key_metrics env now fs ticker period limit =
      (Json.obj [("error", Json.str
         ("Invalid period '" ++ pyLower period ++
          "'. Must be 'annual' or 'quarter'."))], fs, 0, 0) := by
  constructor
  · simp only [_get_financial_statement, h, if_pos]
  · simp only [get_key_metrics, h, if_pos]

/-- C9 witness: the period monthly is rejected by both tools with no fetch
and no cache access. -/
theorem c9_invalid_period_rejected_witness :
    (let env : Env :=
      { cacheConfigured := true, writeOk := true,
        http := fun _ => HttpResponse.failure,
        csvDownload := fun _ => none, apiKey := "k" }
     let fs : CacheFS := fun _ => none
     valid_periods.contains (pyLower "monthly") = false ∧
     (_get_financial_statement env ⟨2024, 5, 1⟩ fs "AAPL" "income" "monthly" 5 =
        (Json.obj [("error", Json.str
           ("Invalid period '" ++ pyLower "monthly" ++
            "'. Must be 'annual' or 'quarter'."))], fs, 0, 0) ∧
      get_key_metrics env ⟨2024, 5, 1⟩ fs "AAPL" "monthly" 20 =
        (Json.obj [("error", Json.str
           ("Invalid period '" ++ pyLower "monthly" ++
            "'. Must be 'annual' or 'quarter'."))], fs, 0, 0))) :=
  ⟨rfl,
   (c9_invalid_period_rejected _ ⟨2024, 5, 1⟩ _ "AAPL" "income" "monthly" 5 rfl).1,
   (c9_invalid_period_rejected _ ⟨2024, 5, 1⟩ _ "AAPL" "income" "monthly" 20 rfl).2⟩
